import Mathlib

/-!
Verification of the cluster core of pyquarkchain (a sharded two-layer
blockchain) against its natural-language specification.

The development shallowly embeds the parts of the code base that the
checked properties are about:

* `quarkchain/config.py` — the topology configuration objects
  (`ShardConfig`, `RootConfig`, `QuarkChainConfig`) with their validation
  and derived quantities;
* `quarkchain/simple_network.py` — the peer wire protocol: the `Hello`
  handshake performed by `Peer.start` and the
  `NewMinorBlockHeaderList` announcement handler;
* the cross-shard transaction fan-out and settlement pipeline and the
  per-shard `add_block` operation.  The implementing modules
  (`quarkchain/cluster/shard_state.py`, `quarkchain/cluster/master.py`,
  `quarkchain/core.py`, `quarkchain/utils.py`, `quarkchain/evm`) are not
  part of the source snapshot, so those definitions are modelled from the
  specification text, as marked in their doc comments.

Python `dict` objects are embedded as association lists (`List (Nat × _)`);
Python big integers as `Nat`; hash digests, addresses and peer ids as
`Nat` stand-ins.  A Python function that can raise on bad input is
embedded with an `Option` or `Bool` result.
-/

/-- Decimal level, from `quarkchain/config.py`: `QUARKSH_TO_JIAOZI = 10 ** 18`. -/
def QUARKSH_TO_JIAOZI : Nat := 10 ^ 18

/-- Modelled from the spec: `is_p2` of `quarkchain/utils.py` is not in the
source snapshot; the spec requires `shard_size` to be "a power of two".
The usual branch-free test is used and `is_p2_iff` below proves that it
holds exactly on the powers of two. -/
def is_p2 (v : Nat) : Bool := v != 0 && (v &&& (v - 1)) == 0

/-- `POWConfig` of `quarkchain/config.py` (field defaults as in the source). -/
structure POWConfig where
  TARGET_BLOCK_TIME : Nat := 10
  REMOTE_MINE : Bool := false
deriving DecidableEq

/-- `RootGenesis` of `quarkchain/config.py`.  Hex-string hash fields are
embedded as `Nat` digests. -/
structure RootGenesis where
  VERSION : Nat := 0
  HEIGHT : Nat := 0
  SHARD_SIZE : Nat := 32
  HASH_PREV_BLOCK : Nat := 0
  HASH_MERKLE_ROOT : Nat := 0
  TIMESTAMP : Nat := 1519147489
  DIFFICULTY : Nat := 1000000
  NONCE : Nat := 0
deriving DecidableEq

/-- `ShardGenesis` of `quarkchain/config.py`.  The `ALLOC` dict (hex address
to amount) is an association list; `EXTRA_DATA` is elided (opaque bytes). -/
structure ShardGenesis where
  ROOT_HEIGHT : Nat := 0
  VERSION : Nat := 0
  HEIGHT : Nat := 0
  HASH_PREV_MINOR_BLOCK : Nat := 0
  HASH_MERKLE_ROOT : Nat := 0
  TIMESTAMP : Nat := 1519147489
  DIFFICULTY : Nat := 10000
  GAS_LIMIT : Nat := 30000 * 400
  NONCE : Nat := 0
  ALLOC : List (Nat × Nat) := []
deriving DecidableEq

/-- `ConsensusType` of `quarkchain/config.py`. -/
inductive ConsensusType where
  | NONE
  | POW_ETHASH
  | POW_DOUBLESHA256
  | POW_SIMULATE
  | POW_QKCHASH
deriving DecidableEq

/-- `RootConfig` of `quarkchain/config.py`.  `CONSENSUS_CONFIG` is `None`
unless the consensus type is a proof-of-work type, hence an `Option`. -/
structure RootConfig where
  MAX_STALE_ROOT_BLOCK_HEIGHT_DIFF : Nat := 60
  CONSENSUS_TYPE : ConsensusType := ConsensusType.NONE
  CONSENSUS_CONFIG : Option POWConfig := none
  GENESIS : RootGenesis := {}
  COINBASE_ADDRESS : Nat := 0
  COINBASE_AMOUNT : Nat := 120 * QUARKSH_TO_JIAOZI
  DIFFICULTY_ADJUSTMENT_CUTOFF_TIME : Nat := 40
  DIFFICULTY_ADJUSTMENT_FACTOR : Nat := 1024
deriving DecidableEq

/-- `ShardConfig` of `quarkchain/config.py`.  The `_root_config`
back-pointer set by `QuarkChainConfig.__init__` is the `root_config` field
(`none` when unset, as for a freshly constructed `ShardConfig`);
`GENESIS` is `some {}` by default as `__init__` assigns `ShardGenesis()`. -/
structure ShardConfig where
  CHAIN_ID : Nat := 0
  SHARD_SIZE : Nat := 1
  SHARD_ID : Nat := 0
  CONSENSUS_TYPE : ConsensusType := ConsensusType.NONE
  CONSENSUS_CONFIG : Option POWConfig := none
  GENESIS : Option ShardGenesis := some {}
  COINBASE_ADDRESS : Nat := 0
  COINBASE_AMOUNT : Nat := 5 * QUARKSH_TO_JIAOZI
  GAS_LIMIT_EMA_DENOMINATOR : Nat := 1024
  GAS_LIMIT_ADJUSTMENT_FACTOR : Nat := 1024
  GAS_LIMIT_MINIMUM : Nat := 5000
  GAS_LIMIT_MAXIMUM : Nat := 2 ^ 63 - 1
  GAS_LIMIT_USAGE_ADJUSTMENT_NUMERATOR : Nat := 3
  GAS_LIMIT_USAGE_ADJUSTMENT_DENOMINATOR : Nat := 2
  DIFFICULTY_ADJUSTMENT_CUTOFF_TIME : Nat := 7
  DIFFICULTY_ADJUSTMENT_FACTOR : Nat := 512
  EXTRA_SHARD_BLOCKS_IN_ROOT_BLOCK : Nat := 3
  root_config : Option RootConfig := none
deriving DecidableEq

/-- `ShardConfig.get_full_shard_id`:
`return (self.CHAIN_ID << 16) | self.SHARD_SIZE | self.SHARD_ID`. -/
def ShardConfig.get_full_shard_id (c : ShardConfig) : Nat :=
  (c.CHAIN_ID <<< 16) ||| c.SHARD_SIZE ||| c.SHARD_ID

/-- `ShardConfig.max_blocks_per_shard_in_one_root_block`.  The Python
property dereferences `self.root_config.CONSENSUS_CONFIG` and
`self.CONSENSUS_CONFIG` (raising if either is `None`, hence `Option`), and
computes `int(root_time / shard_time) + EXTRA_SHARD_BLOCKS_IN_ROOT_BLOCK`;
for the positive integer block times involved the truncated quotient is
`Nat` floor division. -/
def ShardConfig.max_blocks_per_shard_in_one_root_block
    (c : ShardConfig) : Option Nat :=
  match c.root_config with
  | none => none
  | some rc =>
    match rc.CONSENSUS_CONFIG, c.CONSENSUS_CONFIG with
    | some rcc, some cc =>
      some (rcc.TARGET_BLOCK_TIME / cc.TARGET_BLOCK_TIME
        + c.EXTRA_SHARD_BLOCKS_IN_ROOT_BLOCK)
    | _, _ => none

/-- Boolean equality of two `Nat` lists viewed as sets, used to embed the
Python `set(...) == set(...)` checks of `init_and_validate`. -/
def setEqB (l1 l2 : List Nat) : Bool :=
  l1.all (fun x => decide (x ∈ l2)) && l2.all (fun x => decide (x ∈ l1))

/-- The first pass of `QuarkChainConfig.init_and_validate` fills
`_chain_id_to_shard_size` with the `SHARD_SIZE` of the first shard seen on
each chain; this is the corresponding lookup (`get_shard_size_by_chain_id`
after the pass, `none` when the chain has no shard). -/
def chain_first_shard_size
    (shards : List (Nat × ShardConfig)) (chain_id : Nat) : Option Nat :=
  (shards.find? (fun p => p.2.CHAIN_ID == chain_id)).map
    (fun p => p.2.SHARD_SIZE)

/-- The multiset of `SHARD_ID` values of one chain, as collected into
`chain_id_to_shard_ids` by `init_and_validate` (dict-of-set semantics:
only membership is ever used). -/
def chain_shard_ids
    (shards : List (Nat × ShardConfig)) (chain_id : Nat) : List Nat :=
  (shards.filter (fun p => p.2.CHAIN_ID == chain_id)).map
    (fun p => p.2.SHARD_ID)

/-- `QuarkChainConfig.init_and_validate` over the `SHARDS` dict (embedded
as an association list `full_shard_id -> ShardConfig`) and `CHAIN_SIZE`.
Returns whether every `check(...)` in the source passes:
per shard, the key equals `get_full_shard_id`, the size passes `is_p2`,
and the size agrees with the first recorded size of its chain (the
incremental `_chain_id_to_shard_size` bookkeeping — comparing every entry
against the first entry of its chain is the same condition); then per
chain the shard ids must equal `set(range(shard_size))`, and the chain ids
must equal `set(range(CHAIN_SIZE))`. -/
def init_and_validate
    (shards : List (Nat × ShardConfig)) (chain_size : Nat) : Bool :=
  (shards.all (fun p =>
    (p.1 == p.2.get_full_shard_id) &&
    is_p2 p.2.SHARD_SIZE &&
    (chain_first_shard_size shards p.2.CHAIN_ID == some p.2.SHARD_SIZE))) &&
  (shards.all (fun p =>
    match chain_first_shard_size shards p.2.CHAIN_ID with
    | some sz => setEqB (chain_shard_ids shards p.2.CHAIN_ID) (List.range sz)
    | none => false)) &&
  setEqB (shards.map (fun p => p.2.CHAIN_ID)) (List.range chain_size)

/-- The configuration conditions of the spec, stated directly: keys pack
the topology triple, sizes are powers of two and constant per chain, the
shard ids of each chain are exactly `{0, ..., SHARD_SIZE - 1}`, and the
chain ids are exactly `{0, ..., CHAIN_SIZE - 1}`. -/
def ValidQuarkChainConfig
    (shards : List (Nat × ShardConfig)) (chain_size : Nat) : Prop :=
  (∀ p ∈ shards, p.1 = p.2.get_full_shard_id) ∧
  (∀ p ∈ shards, ∃ k, p.2.SHARD_SIZE = 2 ^ k) ∧
  (∀ p ∈ shards, ∀ q ∈ shards,
    p.2.CHAIN_ID = q.2.CHAIN_ID → p.2.SHARD_SIZE = q.2.SHARD_SIZE) ∧
  (∀ p ∈ shards, ∀ i,
    (∃ q ∈ shards, q.2.CHAIN_ID = p.2.CHAIN_ID ∧ q.2.SHARD_ID = i)
      ↔ i < p.2.SHARD_SIZE) ∧
  (∀ c, (∃ p ∈ shards, p.2.CHAIN_ID = c) ↔ c < chain_size)

/-- `QuarkChainConfig.get_initialized_full_shard_ids_before_root_height`:
collects the keys whose config has a truthy `GENESIS` with
`GENESIS.ROOT_HEIGHT < root_height`. -/
def get_initialized_full_shard_ids_before_root_height
    (shards : List (Nat × ShardConfig)) (root_height : Nat) : List Nat :=
  (shards.filter (fun p =>
    match p.2.GENESIS with
    | some g => decide (g.ROOT_HEIGHT < root_height)
    | none => false)).map (fun p => p.1)

/-- `RootBlockHeader`.  Modelled from the spec: `quarkchain/core.py` is not
in the source snapshot; the spec lists the root header fields as height,
previous root hash, merkle root over minor headers, timestamp, difficulty,
nonce and coinbase, and two headers are equal when all fields are. -/
structure RootBlockHeader where
  height : Nat := 0
  hash_prev_root_block : Nat := 0
  hash_merkle_root : Nat := 0
  timestamp : Nat := 0
  difficulty : Nat := 0
  nonce : Nat := 0
  coinbase : Nat := 0
deriving DecidableEq

/-- `HelloCommand` of `quarkchain/simple_network.py` (field order and
names as in the `FIELDS` table, with 256-bit ids and 128-bit ips as
`Nat`). -/
structure HelloCommand where
  version : Nat := 0
  networkId : Nat := 0
  peerId : Nat := 0
  peerIp : Nat := 0
  peerPort : Nat := 38291
  shardMaskList : List Nat := []
  rootBlockHeader : RootBlockHeader := {}
deriving DecidableEq

/-- The command set of `quarkchain/simple_network.py` (`CommandOp` 0-6),
as a tagged variant.  Only the `HELLO` and `NEW_MINOR_BLOCK_HEADER_LIST`
payloads carry data the verified handlers inspect; minor block headers are
represented by their hashes. -/
inductive Command where
  | hello (c : HelloCommand)
  | newMinorBlockHeaderList (rootBlockHeader : RootBlockHeader)
      (minorBlockHeaderList : List Nat)
  | newTransactionList (transactionList : List Nat)
  | getRootBlockListRequest (rootBlockHashList : List Nat)
  | getRootBlockListResponse
  | getPeerListRequest (maxPeers : Nat)
  | getPeerListResponse
deriving DecidableEq

/-- The reasons `Peer.closeWithError` is invoked with in
`quarkchain/simple_network.py`, one constructor per message string. -/
inductive CloseReason where
  | helloMustBeTheFirstCommand
  | incompatibleProtocolVersion
  | incompatibleNetworkId
  | cannotConnectToItself
  | peerAlreadyConnected
  | rootBlockHeightShouldBeNonDecreasing
  | rootBlockSameHeightShouldNotChange
deriving DecidableEq

/-- Outcome of `Peer.start`: either the connection is closed with an
error, or the peer becomes active with its id and the observed best root
header recorded. -/
inductive StartOutcome where
  | closedWithError (r : CloseReason)
  | activePeer (id : Nat) (bestRootBlockHeaderObserved : RootBlockHeader)
deriving DecidableEq

/-- Whether a `StartOutcome` closed the connection. -/
def StartOutcome.isClosed : StartOutcome → Bool
  | StartOutcome.closedWithError _ => true
  | StartOutcome.activePeer _ _ => false

/-- `Peer.start` of `quarkchain/simple_network.py`, given the first
command read from the wire.  Inputs: the local
`env.config.P2P_PROTOCOL_VERSION` and `env.config.NETWORK_ID`, the
network's `selfId`, the current `activePeerPool` (as the list of active
peer ids), and the received command.  The checks appear in source order:
not-HELLO, version, network id, connecting to itself, duplicate peer.
Returns the outcome together with the resulting peer pool (the peer id is
inserted only on success). -/
def peer_start (version networkId selfId : Nat) (activePeerPool : List Nat) :
    Command → StartOutcome × List Nat
  | Command.hello c =>
    if c.version ≠ version then
      (StartOutcome.closedWithError CloseReason.incompatibleProtocolVersion,
        activePeerPool)
    else if c.networkId ≠ networkId then
      (StartOutcome.closedWithError CloseReason.incompatibleNetworkId,
        activePeerPool)
    else if c.peerId = selfId then
      (StartOutcome.closedWithError CloseReason.cannotConnectToItself,
        activePeerPool)
    else if c.peerId ∈ activePeerPool then
      (StartOutcome.closedWithError CloseReason.peerAlreadyConnected,
        activePeerPool)
    else
      (StartOutcome.activePeer c.peerId c.rootBlockHeader,
        c.peerId :: activePeerPool)
  | _ =>
    (StartOutcome.closedWithError CloseReason.helloMustBeTheFirstCommand,
      activePeerPool)

/-- The condition under which `Peer.start` rejects the first command: not
a HELLO, or a HELLO whose version, network id or peer id is unacceptable. -/
def helloRejected (version networkId selfId : Nat)
    (activePeerPool : List Nat) : Command → Prop
  | Command.hello c =>
    c.version ≠ version ∨ c.networkId ≠ networkId ∨ c.peerId = selfId ∨
      c.peerId ∈ activePeerPool
  | _ => True

/-- Outcome of a non-RPC command handler: close the connection or keep
going. -/
inductive HandlerOutcome where
  | closed (r : CloseReason)
  | ok
deriving DecidableEq

/-- `Peer.handleNewMinorBlockHeaderList` of
`quarkchain/simple_network.py`, restricted to the state it touches: the
peer's `bestRootBlockHeaderObserved` and the announced
`cmd.rootBlockHeader`.  Returns the handler outcome and the updated
`bestRootBlockHeaderObserved` (unchanged whenever the connection is
closed or the height is not larger). -/
def handle_new_minor_block_header_list
    (bestRootBlockHeaderObserved cmdRootBlockHeader : RootBlockHeader) :
    HandlerOutcome × RootBlockHeader :=
  if bestRootBlockHeaderObserved.height > cmdRootBlockHeader.height then
    (HandlerOutcome.closed CloseReason.rootBlockHeightShouldBeNonDecreasing,
      bestRootBlockHeaderObserved)
  else if bestRootBlockHeaderObserved.height = cmdRootBlockHeader.height then
    if bestRootBlockHeaderObserved ≠ cmdRootBlockHeader then
      (HandlerOutcome.closed CloseReason.rootBlockSameHeightShouldNotChange,
        bestRootBlockHeaderObserved)
    else
      (HandlerOutcome.ok, bestRootBlockHeaderObserved)
  else
    (HandlerOutcome.ok, cmdRootBlockHeader)

/-- Modelled from the spec: the intrinsic transaction gas constant of the
EVM (`quarkchain/evm/opcodes.py` is not in the source snapshot).  The
verified statements only use it symbolically. -/
def GTXCOST : Nat := 21000

/-- Modelled from the spec: the extra gas charged on the source side for
the cross-shard half of a transfer ("Gas cost for the cross-shard half is
`GTXXSHARDCOST` (paid on the source side)"). -/
def GTXXSHARDCOST : Nat := 9000

/-- Modelled from the spec: one entry of a `CrossShardTxList`, the
`(tx_hash, from, to, value)` record extracted from an executed minor
block. -/
structure CrossShardTransactionDeposit where
  tx_hash : Nat
  from_address : Nat
  to_address : Nat
  value : Nat
  gas_price : Nat
deriving DecidableEq

/-- Modelled from the spec: a simple-transfer transaction payload
(from, to, value, gas, gas_price); cross-shardness is a property of the
addresses and is implicit in which pipeline operation carries it. -/
structure TransferTx where
  tx_hash : Nat
  from_address : Nat
  to_address : Nat
  value : Nat
  gas : Nat
  gas_price : Nat
deriving DecidableEq

/-- Modelled from the spec: the state of the cross-shard settlement
pipeline between a source shard A and a destination shard B — the two
account states, B's cross-shard inbox (received but not yet applied
transfers keyed by source minor-block hash), and the set of source
minor-block hashes confirmed by root blocks B has applied. -/
structure XShardPipelineState where
  src_balances : Nat → Nat
  dest_balances : Nat → Nat
  dest_inbox : List (Nat × CrossShardTransactionDeposit)
  confirmed_src_blocks : List Nat

/-- Modelled from the spec: the source shard includes the cross-shard
transaction in a minor block.  The sender pays value plus the full gas
charge at its gas price; the extracted entry is pushed into the
destination neighbor's inbox under the minor block's hash.  The
destination account state is untouched. -/
def apply_source_minor_block (s : XShardPipelineState) (block_hash : Nat)
    (tx : TransferTx) : XShardPipelineState :=
  { s with
    src_balances := fun a =>
      if a = tx.from_address then
        s.src_balances a - (tx.value + tx.gas_price * tx.gas)
      else s.src_balances a,
    dest_inbox := s.dest_inbox ++
      [(block_hash,
        { tx_hash := tx.tx_hash, from_address := tx.from_address,
          to_address := tx.to_address, value := tx.value,
          gas_price := tx.gas_price })] }

/-- Modelled from the spec: a root block confirming the given minor-block
hashes is applied on the destination shard.  Only the confirmation set
changes; no balance moves ("the destination account's balance is ...
unchanged when the confirming root block is added"). -/
def apply_root_block (s : XShardPipelineState)
    (confirmed_minor_hashes : List Nat) : XShardPipelineState :=
  { s with confirmed_src_blocks :=
      s.confirmed_src_blocks ++ confirmed_minor_hashes }

/-- Modelled from the spec: the destination shard processes its next minor
block, draining exactly the inbox entries whose source minor blocks are
root-confirmed and crediting each destination account. -/
def apply_dest_minor_block (s : XShardPipelineState) : XShardPipelineState :=
  let drained := s.dest_inbox.filter
    (fun e => decide (e.1 ∈ s.confirmed_src_blocks))
  { s with
    dest_balances := drained.foldl
      (fun bal e => fun a =>
        if a = e.2.to_address then bal a + e.2.value else bal a)
      s.dest_balances,
    dest_inbox := s.dest_inbox.filter
      (fun e => decide (e.1 ∉ s.confirmed_src_blocks)) }

/-- Modelled from the spec: the neighbor relation — "shard A broadcasts to
shard B iff `A xor B` is a power of two". -/
def is_neighbor (a b : Nat) : Bool := is_p2 (a ^^^ b)

/-- Modelled from the spec: the per-cluster map from full shard id to that
shard's store of received `CrossShardTxList`s, keyed by source minor-block
hash. -/
def XShardDbMap : Type := Nat → List (Nat × List CrossShardTransactionDeposit)

/-- Modelled from the spec: fan-out of the cross-shard list of one freshly
added minor block.  Every shard of the cluster that is a neighbor of the
source shard stores the list under the block's hash; every other shard's
store is untouched ("non-neighbor shards never see them"). -/
def broadcast_xshard_tx_list (cluster_shards : List Nat) (dbs : XShardDbMap)
    (src : Nat) (block_hash : Nat)
    (txs : List CrossShardTransactionDeposit) : XShardDbMap :=
  fun b =>
    if b ∈ cluster_shards ∧ is_neighbor src b = true then
      (block_hash, txs) :: dbs b
    else dbs b

/-- Modelled from the spec: `get_minor_block_xshard_tx_list` succeeding on
a shard's store, i.e. the shard holds a list for the given source
minor-block hash. -/
def holds_xshard_tx_list (dbs : XShardDbMap) (b : Nat) (block_hash : Nat) :
    Bool :=
  (dbs b).any (fun e => e.1 == block_hash)

/-- Modelled from the spec: a minor block as `ShardState.add_block`
consumes it — hash, parent hash, height, and the transfers its body
executes on acceptance (`(from, to, value)` triples). -/
structure MinorBlockM where
  block_hash : Nat
  hash_prev_minor_block : Nat
  height : Nat
  transfers : List (Nat × Nat × Nat)
deriving DecidableEq

/-- Modelled from the spec: the per-shard ledger state touched by
`add_block` — the store of accepted blocks, the canonical tip, and the
account state at the tip. -/
structure ShardStateM where
  blocks : List MinorBlockM
  tip_hash : Nat
  tip_height : Nat
  balances : Nat → Nat

/-- Modelled from the spec: `contain_block_by_hash`. -/
def contain_block_by_hash (s : ShardStateM) (h : Nat) : Bool :=
  s.blocks.any (fun b => b.block_hash == h)

/-- Modelled from the spec: execute a block's transfers on an account
state (the external EVM collaborator, reduced to simple value moves). -/
def apply_transfers (bal : Nat → Nat) (ts : List (Nat × Nat × Nat)) :
    Nat → Nat :=
  ts.foldl
    (fun f t => fun a =>
      if a = t.1 then f a - t.2.2
      else if a = t.2.1 then f a + t.2.2
      else f a)
    bal

/-- Modelled from the spec: `ShardState.add_block`.  A block already in
the store is a no-op reporting success; a block with an unknown parent is
rejected; otherwise the block is stored, and when it extends the tip the
tip advances and the transfers execute.  Returns the success flag and the
new state. -/
def add_block (s : ShardStateM) (b : MinorBlockM) : Bool × ShardStateM :=
  if contain_block_by_hash s b.block_hash then (true, s)
  else if ¬ contain_block_by_hash s b.hash_prev_minor_block then (false, s)
  else if b.hash_prev_minor_block = s.tip_hash ∧ s.tip_height < b.height then
    (true,
      { blocks := b :: s.blocks,
        tip_hash := b.block_hash,
        tip_height := b.height,
        balances := apply_transfers s.balances b.transfers })
  else
    (true, { s with blocks := b :: s.blocks })

/-- A nonzero number whose bitwise-and with its predecessor vanishes is a
power of two (the interesting direction of the `is_p2` test). -/
theorem p2_of_and_pred :
    ∀ v : Nat, v ≠ 0 → v &&& (v - 1) = 0 → ∃ k, v = 2 ^ k := by
  intro v
  induction v using Nat.strong_induction_on with
  | _ v ih =>
    intro hne h
    rcases Nat.even_or_odd v with he | ho
    · rcases he with ⟨m, hm⟩
      have hm0 : m ≠ 0 := by omega
      have hand : m &&& (m - 1) = 0 := by
        apply Nat.eq_of_testBit_eq
        intro i
        rw [Nat.zero_testBit, Nat.testBit_and]
        have h1 : Nat.testBit m i = Nat.testBit v (i + 1) := by
          rw [Nat.testBit_add_one]
          congr 1
          omega
        have h2 : Nat.testBit (m - 1) i = Nat.testBit (v - 1) (i + 1) := by
          rw [Nat.testBit_add_one]
          congr 1
          omega
        rw [h1, h2, ← Nat.testBit_and, h, Nat.zero_testBit]
      obtain ⟨k, hk⟩ := ih m (by omega) hm0 hand
      refine ⟨k + 1, ?_⟩
      rw [pow_succ]
      omega
    · rcases ho with ⟨m, hm⟩
      by_cases hm0 : m = 0
      · refine ⟨0, ?_⟩
        rw [pow_zero]
        omega
      · exfalso
        obtain ⟨j, hj⟩ := Nat.ne_zero_implies_bit_true hm0
        have h1 : Nat.testBit v (j + 1) = true := by
          rw [Nat.testBit_add_one]
          have hv2 : v / 2 = m := by omega
          rw [hv2]
          exact hj
        have h2 : Nat.testBit (v - 1) (j + 1) = true := by
          rw [Nat.testBit_add_one]
          have hv2 : (v - 1) / 2 = m := by omega
          rw [hv2]
          exact hj
        have hx : Nat.testBit (v &&& (v - 1)) (j + 1) = true := by
          rw [Nat.testBit_and, h1, h2]
          rfl
        rw [h, Nat.zero_testBit] at hx
        cases hx

/-- A power of two bitwise-ands with its predecessor to zero. -/
theorem two_pow_and_pred (k : Nat) : 2 ^ k &&& (2 ^ k - 1) = 0 := by
  apply Nat.eq_of_testBit_eq
  intro i
  rw [Nat.testBit_and, Nat.zero_testBit, Nat.testBit_two_pow,
    Nat.testBit_two_pow_sub_one]
  by_cases h : k = i
  · simp [h]
  · simp [h]

/-- The `is_p2` test holds exactly on powers of two. -/
theorem is_p2_iff (v : Nat) : is_p2 v = true ↔ ∃ k, v = 2 ^ k := by
  unfold is_p2
  simp only [Bool.and_eq_true, bne_iff_ne, beq_iff_eq, ne_eq]
  constructor
  · rintro ⟨h1, h2⟩
    exact p2_of_and_pred v h1 h2
  · rintro ⟨k, hk⟩
    subst hk
    exact ⟨(Nat.two_pow_pos k).ne', two_pow_and_pred k⟩

/-- `setEqB` decides set equality of the underlying lists. -/
theorem setEqB_iff (l1 l2 : List Nat) :
    setEqB l1 l2 = true ↔ ∀ x, x ∈ l1 ↔ x ∈ l2 := by
  unfold setEqB
  simp only [Bool.and_eq_true, List.all_eq_true, decide_eq_true_eq]
  constructor
  · rintro ⟨h1, h2⟩ x
    exact ⟨fun h => h1 x h, fun h => h2 x h⟩
  · intro h
    exact ⟨fun x hx => (h x).1 hx, fun x hx => (h x).2 hx⟩

/-- In an association list with pairwise distinct keys, a key determines
its value. -/
theorem assoc_key_unique {α : Type} {l : List (Nat × α)}
    (hnd : (l.map Prod.fst).Nodup) {a : Nat} {b1 b2 : α}
    (h1 : (a, b1) ∈ l) (h2 : (a, b2) ∈ l) : b1 = b2 := by
  induction l with
  | nil => cases h1
  | cons hd tl ih =>
    simp only [List.map_cons, List.nodup_cons] at hnd
    rcases List.mem_cons.mp h1 with e1 | m1
    · rcases List.mem_cons.mp h2 with e2 | m2
      · exact congrArg Prod.snd (e1.trans e2.symm)
      · exfalso
        apply hnd.1
        have ha : hd.1 = a := by rw [← e1]
        rw [ha]
        exact List.mem_map.mpr ⟨(a, b2), m2, rfl⟩
    · rcases List.mem_cons.mp h2 with e2 | m2
      · exfalso
        apply hnd.1
        have ha : hd.1 = a := by rw [← e2]
        rw [ha]
        exact List.mem_map.mpr ⟨(a, b1), m1, rfl⟩
      · exact ih hnd.2 m1 m2

/-- Claim C5: `Peer.start` closes the connection, leaving the active peer
pool untouched, exactly when the first command is not a HELLO, or its
version differs from the local protocol version, or its network id
differs from the local network id, or its peer id is the node's own id,
or its peer id is already in the active peer pool; otherwise the peer is
registered in the pool and becomes active. -/
theorem peer_start_hello_validation (version networkId selfId : Nat)
    (pool : List Nat) (cmd : Command) :
    ((peer_start version networkId selfId pool cmd).1.isClosed = true ↔
      helloRejected version networkId selfId pool cmd) ∧
    ((peer_start version networkId selfId pool cmd).1.isClosed = true →
      (peer_start version networkId selfId pool cmd).2 = pool) ∧
    (¬ helloRejected version networkId selfId pool cmd →
      ∃ c, cmd = Command.hello c ∧
        peer_start version networkId selfId pool cmd =
          (StartOutcome.activePeer c.peerId c.rootBlockHeader,
            c.peerId :: pool)) := by
  cases cmd with
  | hello c =>
    by_cases h1 : c.version = version
    · by_cases h2 : c.networkId = networkId
      · by_cases h3 : c.peerId = selfId
        · simp [peer_start, helloRejected, h1, h2, h3, StartOutcome.isClosed]
        · by_cases h4 : c.peerId ∈ pool
          · simp [peer_start, helloRejected, h1, h2, h3, h4,
              StartOutcome.isClosed]
          · simp [peer_start, helloRejected, h1, h2, h3, h4,
              StartOutcome.isClosed]
      · simp [peer_start, helloRejected, h1, h2, StartOutcome.isClosed]
    · simp [peer_start, helloRejected, h1, StartOutcome.isClosed]
  | newMinorBlockHeaderList r m =>
    simp [peer_start, helloRejected, StartOutcome.isClosed]
  | newTransactionList t =>
    simp [peer_start, helloRejected, StartOutcome.isClosed]
  | getRootBlockListRequest t =>
    simp [peer_start, helloRejected, StartOutcome.isClosed]
  | getRootBlockListResponse =>
    simp [peer_start, helloRejected, StartOutcome.isClosed]
  | getPeerListRequest t =>
    simp [peer_start, helloRejected, StartOutcome.isClosed]
  | getPeerListResponse =>
    simp [peer_start, helloRejected, StartOutcome.isClosed]

/-- Witness for C5: a HELLO carrying the node's own peer id is rejected. -/
theorem peer_start_hello_validation_witness :
    (peer_start 0 0 5 [] (Command.hello { peerId := 5 })).1.isClosed =
      true :=
  (peer_start_hello_validation 0 0 5 [] (Command.hello { peerId := 5 })).1.mpr
    (Or.inr (Or.inr (Or.inl rfl)))

/-- Claim C6: on a `NewMinorBlockHeaderList` announcement, a root header
of height strictly below the best previously observed closes the
connection, and one of strictly greater height replaces the recorded best
observed root header. -/
theorem handle_new_minor_block_header_list_monotonic
    (best cmd : RootBlockHeader) :
    (cmd.height < best.height →
      handle_new_minor_block_header_list best cmd =
        (HandlerOutcome.closed
          CloseReason.rootBlockHeightShouldBeNonDecreasing, best)) ∧
    (best.height < cmd.height →
      handle_new_minor_block_header_list best cmd =
        (HandlerOutcome.ok, cmd)) := by
  constructor
  · intro h
    simp [handle_new_minor_block_header_list, h]
  · intro h
    have h1 : ¬ best.height > cmd.height := by omega
    have h2 : ¬ best.height = cmd.height := by omega
    simp [handle_new_minor_block_header_list, h1, h2]

/-- Witness for C6 at heights 3 over 1 (close) and 1 under 3 (update). -/
theorem handle_new_minor_block_header_list_monotonic_witness :
    handle_new_minor_block_header_list { height := 3 } { height := 1 } =
      (HandlerOutcome.closed
        CloseReason.rootBlockHeightShouldBeNonDecreasing,
        { height := 3 }) ∧
    handle_new_minor_block_header_list { height := 1 } { height := 3 } =
      (HandlerOutcome.ok, { height := 3 }) :=
  ⟨(handle_new_minor_block_header_list_monotonic { height := 3 }
      { height := 1 }).1 (by decide),
   (handle_new_minor_block_header_list_monotonic { height := 1 }
      { height := 3 }).2 (by decide)⟩

/-- Claim C9: an announcement repeating the best observed root height with
a different root header closes the connection. -/
theorem handle_same_height_header_change_closes
    (best cmd : RootBlockHeader)
    (hh : best.height = cmd.height) (hne : best ≠ cmd) :
    handle_new_minor_block_header_list best cmd =
      (HandlerOutcome.closed
        CloseReason.rootBlockSameHeightShouldNotChange, best) := by
  have h1 : ¬ best.height > cmd.height := by omega
  simp [handle_new_minor_block_header_list, h1, hh, hne]

/-- Witness for C9: two distinct headers at the same height 2. -/
theorem handle_same_height_header_change_closes_witness :
    handle_new_minor_block_header_list { height := 2, nonce := 1 }
      { height := 2 } =
      (HandlerOutcome.closed
        CloseReason.rootBlockSameHeightShouldNotChange,
        { height := 2, nonce := 1 }) :=
  handle_same_height_header_change_closes { height := 2, nonce := 1 }
    { height := 2 } rfl (by decide)

/-- Claim C8: with the root config attached and proof-of-work configs
present, `max_blocks_per_shard_in_one_root_block` is the floor quotient
of the root target block time by the shard target block time, plus
`EXTRA_SHARD_BLOCKS_IN_ROOT_BLOCK`. -/
theorem max_blocks_per_shard_formula (c : ShardConfig) (rc : RootConfig)
    (rcc cc : POWConfig)
    (h1 : c.root_config = some rc) (h2 : rc.CONSENSUS_CONFIG = some rcc)
    (h3 : c.CONSENSUS_CONFIG = some cc)
    (h4 : 0 < rcc.TARGET_BLOCK_TIME) (h5 : 0 < cc.TARGET_BLOCK_TIME) :
    c.max_blocks_per_shard_in_one_root_block =
      some (rcc.TARGET_BLOCK_TIME / cc.TARGET_BLOCK_TIME
        + c.EXTRA_SHARD_BLOCKS_IN_ROOT_BLOCK) := by
  simp [ShardConfig.max_blocks_per_shard_in_one_root_block, h1, h2, h3]

/-- Witness for C8 at the default times: root 10s, shard 3s, extra 3,
giving 10 / 3 + 3 = 6. -/
theorem max_blocks_per_shard_formula_witness :
    ShardConfig.max_blocks_per_shard_in_one_root_block
      { CONSENSUS_CONFIG := some { TARGET_BLOCK_TIME := 3 },
        root_config := some { CONSENSUS_CONFIG := some {} } } = some 6 :=
  max_blocks_per_shard_formula
    { CONSENSUS_CONFIG := some { TARGET_BLOCK_TIME := 3 },
      root_config := some { CONSENSUS_CONFIG := some {} } }
    { CONSENSUS_CONFIG := some {} } {} { TARGET_BLOCK_TIME := 3 }
    rfl rfl rfl (by decide) (by decide)

/-- Claim C10: a full shard id is returned by
`get_initialized_full_shard_ids_before_root_height` exactly when its
config has a GENESIS whose `ROOT_HEIGHT` is strictly below the given root
height; a shard whose genesis root height equals the given height is
excluded. -/
theorem initialized_shards_before_root_height
    (shards : List (Nat × ShardConfig)) (root_height : Nat)
    (s : Nat) (cfg : ShardConfig)
    (hnd : (shards.map Prod.fst).Nodup) (hmem : (s, cfg) ∈ shards) :
    (s ∈ get_initialized_full_shard_ids_before_root_height shards
        root_height ↔
      ∃ g, cfg.GENESIS = some g ∧ g.ROOT_HEIGHT < root_height) ∧
    (∀ g, cfg.GENESIS = some g → g.ROOT_HEIGHT = root_height →
      s ∉ get_initialized_full_shard_ids_before_root_height shards
        root_height) := by
  have hiff : s ∈ get_initialized_full_shard_ids_before_root_height shards
      root_height ↔
      ∃ g, cfg.GENESIS = some g ∧ g.ROOT_HEIGHT < root_height := by
    unfold get_initialized_full_shard_ids_before_root_height
    simp only [List.mem_map, List.mem_filter]
    constructor
    · rintro ⟨p, ⟨pmem, ppred⟩, pfst⟩
      have hp : p = (s, p.2) := by
        rw [← pfst]
      rw [hp] at pmem
      have hcfg : p.2 = cfg := assoc_key_unique hnd pmem hmem
      rw [hcfg] at ppred
      cases hG : cfg.GENESIS with
      | none => rw [hG] at ppred; cases ppred
      | some g =>
        rw [hG] at ppred
        simp only [decide_eq_true_eq] at ppred
        exact ⟨g, rfl, ppred⟩
    · rintro ⟨g, hg, hlt⟩
      refine ⟨(s, cfg), ⟨hmem, ?_⟩, rfl⟩
      rw [hg]
      simpa using hlt
  refine ⟨hiff, ?_⟩
  intro g hg heq hin
  rcases hiff.mp hin with ⟨g2, hg2, hlt⟩
  rw [hg] at hg2
  have hgg : g = g2 := Option.some.inj hg2
  rw [hgg] at heq
  omega

/-- Witness for C10: with a single shard of genesis root height 1, the
shard id is listed before root height 2. -/
theorem initialized_shards_before_root_height_witness :
    65537 ∈ get_initialized_full_shard_ids_before_root_height
      [(65537, { GENESIS := some { ROOT_HEIGHT := 1 } })] 2 :=
  (initialized_shards_before_root_height
    [(65537, { GENESIS := some { ROOT_HEIGHT := 1 } })] 2 65537
    { GENESIS := some { ROOT_HEIGHT := 1 } }
    (by simp) (List.mem_singleton.mpr rfl)).1.mpr ⟨_, rfl, by decide⟩

/-- Packing arithmetic: for a power-of-two size below `2 ^ 16` and a shard
id below the size, the bitwise pack `(ch <<< 16) ||| sz ||| id` is the sum
`2 ^ 16 * ch + sz + id`, whose low half stays below `2 ^ 16`. -/
theorem pack_or_eq_add (ch sz id : Nat) (hp : ∃ k, sz = 2 ^ k)
    (hs : sz < 2 ^ 16) (hi : id < sz) :
    (ch <<< 16) ||| sz ||| id = 2 ^ 16 * ch + sz + id ∧ sz + id < 2 ^ 16 := by
  obtain ⟨k, hk⟩ := hp
  have hk16 : k < 16 := by
    by_contra hcon
    push_neg at hcon
    have : (2 : Nat) ^ 16 ≤ 2 ^ k := Nat.pow_le_pow_right (by norm_num) hcon
    omega
  have hlow : sz ||| id = sz + id := by
    have h := Nat.mul_add_lt_is_or (i := k) (by rw [← hk]; exact hi) 1
    rw [Nat.mul_one] at h
    rw [hk]
    exact h.symm
  have hbound : sz + id < 2 ^ 16 := by
    have h2 : 2 * sz ≤ 2 ^ 16 := by
      subst hk
      rw [← pow_succ']
      exact Nat.pow_le_pow_right (by norm_num) (by omega)
    omega
  have hhigh : (ch <<< 16) ||| (sz + id) = 2 ^ 16 * ch + (sz + id) := by
    rw [Nat.shiftLeft_eq, Nat.mul_comm]
    exact (Nat.mul_add_lt_is_or hbound ch).symm
  constructor
  · rw [Nat.or_assoc, hlow, hhigh, Nat.add_assoc]
  · exact hbound

/-- A number below `2 ^ 16` written as a power of two plus a smaller
remainder determines the exponent. -/
theorem pow_two_add_inj {k1 k2 i1 i2 : Nat} (h1 : i1 < 2 ^ k1)
    (h2 : i2 < 2 ^ k2) (he : 2 ^ k1 + i1 = 2 ^ k2 + i2) : k1 = k2 := by
  rcases Nat.lt_trichotomy k1 k2 with h | h | h
  · exfalso
    have ha : 2 ^ k1 + i1 < 2 ^ (k1 + 1) := by rw [pow_succ]; omega
    have hb : (2 : Nat) ^ (k1 + 1) ≤ 2 ^ k2 := Nat.pow_le_pow_right (by norm_num) h
    omega
  · exact h
  · exfalso
    have ha : 2 ^ k2 + i2 < 2 ^ (k2 + 1) := by rw [pow_succ]; omega
    have hb : (2 : Nat) ^ (k2 + 1) ≤ 2 ^ k1 := Nat.pow_le_pow_right (by norm_num) h
    omega

/-- Claim C4: under the topology preconditions (`CHAIN_ID < 2 ^ 16`, a
power-of-two `SHARD_SIZE < 2 ^ 16`, `SHARD_ID < SHARD_SIZE`),
`get_full_shard_id` is exactly `(CHAIN_ID << 16) | SHARD_SIZE | SHARD_ID`,
fits in 32 bits, and is injective on the topology triples. -/
theorem get_full_shard_id_packing (c d : ShardConfig)
    (hc : c.CHAIN_ID < 2 ^ 16) (hcp : ∃ k, c.SHARD_SIZE = 2 ^ k)
    (hcs : c.SHARD_SIZE < 2 ^ 16) (hci : c.SHARD_ID < c.SHARD_SIZE)
    (hd : d.CHAIN_ID < 2 ^ 16) (hdp : ∃ k, d.SHARD_SIZE = 2 ^ k)
    (hds : d.SHARD_SIZE < 2 ^ 16) (hdi : d.SHARD_ID < d.SHARD_SIZE) :
    c.get_full_shard_id =
      (c.CHAIN_ID <<< 16) ||| c.SHARD_SIZE ||| c.SHARD_ID ∧
    c.get_full_shard_id < 2 ^ 32 ∧
    (c.get_full_shard_id = d.get_full_shard_id →
      c.CHAIN_ID = d.CHAIN_ID ∧ c.SHARD_SIZE = d.SHARD_SIZE ∧
        c.SHARD_ID = d.SHARD_ID) := by
  obtain ⟨hceq, hcb⟩ :=
    pack_or_eq_add c.CHAIN_ID c.SHARD_SIZE c.SHARD_ID hcp hcs hci
  obtain ⟨hdeq, hdb⟩ :=
    pack_or_eq_add d.CHAIN_ID d.SHARD_SIZE d.SHARD_ID hdp hds hdi
  refine ⟨rfl, ?_, ?_⟩
  · unfold ShardConfig.get_full_shard_id
    rw [hceq]
    omega
  · intro he
    unfold ShardConfig.get_full_shard_id at he
    rw [hceq, hdeq] at he
    have hch : c.CHAIN_ID = d.CHAIN_ID := by omega
    have hsum : c.SHARD_SIZE + c.SHARD_ID = d.SHARD_SIZE + d.SHARD_ID := by
      omega
    obtain ⟨k1, hk1⟩ := hcp
    obtain ⟨k2, hk2⟩ := hdp
    have hci2 : c.SHARD_ID < 2 ^ k1 := by rw [← hk1]; exact hci
    have hdi2 : d.SHARD_ID < 2 ^ k2 := by rw [← hk2]; exact hdi
    have hsum2 : 2 ^ k1 + c.SHARD_ID = 2 ^ k2 + d.SHARD_ID := by
      rw [← hk1, ← hk2]; exact hsum
    have hkk : k1 = k2 := pow_two_add_inj hci2 hdi2 hsum2
    have hss : c.SHARD_SIZE = d.SHARD_SIZE := by rw [hk1, hk2, hkk]
    exact ⟨hch, hss, by omega⟩

/-- Witness for C4: chain 1, size 4, shard 2 packs below `2 ^ 32`. -/
theorem get_full_shard_id_packing_witness :
    ShardConfig.get_full_shard_id
      { CHAIN_ID := 1, SHARD_SIZE := 4, SHARD_ID := 2 } < 2 ^ 32 :=
  (get_full_shard_id_packing
    { CHAIN_ID := 1, SHARD_SIZE := 4, SHARD_ID := 2 }
    { CHAIN_ID := 1, SHARD_SIZE := 4, SHARD_ID := 2 }
    (by decide) ⟨2, rfl⟩ (by decide) (by decide)
    (by decide) ⟨2, rfl⟩ (by decide) (by decide)).2.1

/-- Membership in the collected shard ids of one chain. -/
theorem mem_chain_shard_ids (shards : List (Nat × ShardConfig))
    (cid i : Nat) :
    i ∈ chain_shard_ids shards cid ↔
      ∃ p ∈ shards, p.2.CHAIN_ID = cid ∧ p.2.SHARD_ID = i := by
  unfold chain_shard_ids
  constructor
  · intro h
    rcases List.mem_map.mp h with ⟨p, hp, hpi⟩
    rcases List.mem_filter.mp hp with ⟨hmem, hpc⟩
    simp only [beq_iff_eq] at hpc
    exact ⟨p, hmem, hpc, hpi⟩
  · rintro ⟨p, hp, hpc, hpi⟩
    exact List.mem_map.mpr ⟨p, List.mem_filter.mpr ⟨hp, by simp [hpc]⟩, hpi⟩

/-- For a shard present in the list, the first recorded size of its chain
exists and is the size of some shard of the same chain. -/
theorem chain_first_shard_size_spec (shards : List (Nat × ShardConfig))
    {p : Nat × ShardConfig} (hp : p ∈ shards) :
    ∃ q ∈ shards, q.2.CHAIN_ID = p.2.CHAIN_ID ∧
      chain_first_shard_size shards p.2.CHAIN_ID = some q.2.SHARD_SIZE := by
  unfold chain_first_shard_size
  cases hfind : shards.find? (fun r => r.2.CHAIN_ID == p.2.CHAIN_ID) with
  | none =>
    exfalso
    have hsome :
        (shards.find? (fun r => r.2.CHAIN_ID == p.2.CHAIN_ID)).isSome := by
      rw [List.find?_isSome]
      exact ⟨p, hp, by simp⟩
    rw [hfind] at hsome
    cases hsome
  | some q =>
    have h1 := List.find?_some hfind
    have h2 := List.mem_of_find?_eq_some hfind
    simp only [beq_iff_eq] at h1
    exact ⟨q, h2, h1, rfl⟩

/-- Claim C3: `init_and_validate` succeeds exactly on the well-formed
topologies — every `SHARDS` key packs its config's triple, every shard
size is a power of two and constant across its chain, the shard ids of
each chain are exactly `{0, ..., SHARD_SIZE - 1}`, and the chain ids are
exactly `{0, ..., CHAIN_SIZE - 1}`. -/
theorem init_and_validate_iff (shards : List (Nat × ShardConfig))
    (chain_size : Nat) :
    init_and_validate shards chain_size = true ↔
      ValidQuarkChainConfig shards chain_size := by
  unfold init_and_validate ValidQuarkChainConfig
  simp only [Bool.and_eq_true, List.all_eq_true]
  constructor
  · rintro ⟨⟨h1, h2⟩, h3⟩
    have key : ∀ p ∈ shards, p.1 = p.2.get_full_shard_id ∧
        (∃ k, p.2.SHARD_SIZE = 2 ^ k) ∧
        chain_first_shard_size shards p.2.CHAIN_ID =
          some p.2.SHARD_SIZE := by
      intro p hp
      have hh := h1 p hp
      simp only [Bool.and_eq_true, beq_iff_eq] at hh
      exact ⟨hh.1.1, (is_p2_iff _).mp hh.1.2, hh.2⟩
    refine ⟨?_, ?_, ?_, ?_, ?_⟩
    · intro p hp
      exact (key p hp).1
    · intro p hp
      exact (key p hp).2.1
    · intro p hp q hq hpq
      have kp := (key p hp).2.2
      have kq := (key q hq).2.2
      rw [hpq] at kp
      rw [kp] at kq
      exact Option.some.inj kq
    · intro p hp i
      have h3p := h2 p hp
      rw [(key p hp).2.2] at h3p
      have hset := (setEqB_iff _ _).mp h3p i
      rw [mem_chain_shard_ids, List.mem_range] at hset
      exact hset
    · intro c
      have hset := (setEqB_iff _ _).mp h3 c
      rw [List.mem_range] at hset
      constructor
      · rintro ⟨p, hp, hpc⟩
        exact hset.mp (List.mem_map.mpr ⟨p, hp, hpc⟩)
      · intro hc
        rcases List.mem_map.mp (hset.mpr hc) with ⟨p, hp, hpc⟩
        exact ⟨p, hp, hpc⟩
  · rintro ⟨v1, v2, v3, v4, v5⟩
    have hfirst : ∀ p ∈ shards,
        chain_first_shard_size shards p.2.CHAIN_ID =
          some p.2.SHARD_SIZE := by
      intro p hp
      obtain ⟨q, hq, hqc, hqs⟩ := chain_first_shard_size_spec shards hp
      rw [hqs]
      exact congrArg some (v3 q hq p hp hqc)
    refine ⟨⟨?_, ?_⟩, ?_⟩
    · intro p hp
      simp only [Bool.and_eq_true, beq_iff_eq]
      exact ⟨⟨v1 p hp, (is_p2_iff _).mpr (v2 p hp)⟩, hfirst p hp⟩
    · intro p hp
      simp only [hfirst p hp]
      apply (setEqB_iff _ _).mpr
      intro i
      rw [mem_chain_shard_ids, List.mem_range]
      exact v4 p hp i
    · apply (setEqB_iff _ _).mpr
      intro c
      rw [List.mem_range]
      constructor
      · intro hc
        rcases List.mem_map.mp hc with ⟨p, hp, hpc⟩
        exact (v5 c).mp ⟨p, hp, hpc⟩
      · intro hc
        rcases (v5 c).mpr hc with ⟨p, hp, hpc⟩
        exact List.mem_map.mpr ⟨p, hp, hpc⟩

/-- Claim C1: a cross-shard transfer of value v settles in three steps —
inclusion in the source minor block debits the sender by
value + gas_price * gas and leaves the destination balances untouched,
the confirming root block leaves the destination balances untouched (and
so does a destination block mined before the confirmation), and only the
destination minor block processed after the confirmation credits the
recipient by exactly v (every other destination account unchanged). -/
theorem xshard_settlement_pipeline (s0 : XShardPipelineState)
    (tx : TransferTx) (block_hash : Nat)
    (hinbox : s0.dest_inbox = []) (hconf : s0.confirmed_src_blocks = []) :
    (apply_source_minor_block s0 block_hash tx).dest_balances =
      s0.dest_balances ∧
    (apply_source_minor_block s0 block_hash tx).src_balances
        tx.from_address =
      s0.src_balances tx.from_address -
        (tx.value + tx.gas_price * tx.gas) ∧
    (apply_root_block (apply_source_minor_block s0 block_hash tx)
        [block_hash]).dest_balances = s0.dest_balances ∧
    (apply_dest_minor_block
        (apply_source_minor_block s0 block_hash tx)).dest_balances =
      s0.dest_balances ∧
    (apply_dest_minor_block
        (apply_root_block (apply_source_minor_block s0 block_hash tx)
          [block_hash])).dest_balances tx.to_address =
      s0.dest_balances tx.to_address + tx.value ∧
    ∀ a, a ≠ tx.to_address →
      (apply_dest_minor_block
          (apply_root_block (apply_source_minor_block s0 block_hash tx)
            [block_hash])).dest_balances a = s0.dest_balances a := by
  refine ⟨rfl, ?_, rfl, ?_, ?_, ?_⟩
  · simp [apply_source_minor_block]
  · simp [apply_dest_minor_block, apply_source_minor_block, hinbox, hconf]
  · simp [apply_dest_minor_block, apply_root_block,
      apply_source_minor_block, hinbox, hconf]
  · intro a ha
    simp [apply_dest_minor_block, apply_root_block,
      apply_source_minor_block, hinbox, hconf, ha]

/-- Witness for C1: the spec's concrete scenario — a transfer of 54321 at
gas price 3 and gas limit GTXXSHARDCOST + GTXCOST debits the sender by
54321 + 3 * (GTXXSHARDCOST + GTXCOST), and after root confirmation the
destination block credits the recipient (starting from 0) with 54321. -/
theorem xshard_settlement_pipeline_witness :
    (apply_source_minor_block
      { src_balances := fun a => if a = 1 then 1000000 else 0,
        dest_balances := fun _ => 0, dest_inbox := [],
        confirmed_src_blocks := [] } 5
      { tx_hash := 7, from_address := 1, to_address := 2, value := 54321,
        gas := GTXXSHARDCOST + GTXCOST, gas_price := 3 }).src_balances 1 =
      1000000 - (54321 + 3 * (GTXXSHARDCOST + GTXCOST)) ∧
    (apply_dest_minor_block
      (apply_root_block
        (apply_source_minor_block
          { src_balances := fun a => if a = 1 then 1000000 else 0,
            dest_balances := fun _ => 0, dest_inbox := [],
            confirmed_src_blocks := [] } 5
          { tx_hash := 7, from_address := 1, to_address := 2,
            value := 54321, gas := GTXXSHARDCOST + GTXCOST,
            gas_price := 3 }) [5])).dest_balances 2 = 0 + 54321 := by
  have h := xshard_settlement_pipeline
    { src_balances := fun a => if a = 1 then 1000000 else 0,
      dest_balances := fun _ => 0, dest_inbox := [],
      confirmed_src_blocks := [] }
    { tx_hash := 7, from_address := 1, to_address := 2, value := 54321,
      gas := GTXXSHARDCOST + GTXCOST, gas_price := 3 } 5 rfl rfl
  exact ⟨h.2.1, h.2.2.2.2.1⟩

set_option maxRecDepth 10000

/-- Claim C2: after a minor block of a source shard is added, a shard of
the cluster holds the block's `CrossShardTxList` under the block's hash
exactly when it is a neighbor of the source (their ids xor to a power of
two); with shard size 64 and source shard id 0 the neighbors are exactly
the shard ids 1, 2, 4, 8, 16 and 32, and every source shard id below 64
fans out to exactly 6 = log2 64 other shards. -/
theorem xshard_broadcast_neighbor_only :
    (∀ (cluster_shards : List Nat) (dbs : XShardDbMap)
        (src block_hash : Nat) (txs : List CrossShardTransactionDeposit)
        (b : Nat),
      b ∈ cluster_shards →
      (∀ e ∈ dbs b, e.1 ≠ block_hash) →
      (holds_xshard_tx_list
          (broadcast_xshard_tx_list cluster_shards dbs src block_hash txs)
          b block_hash = true ↔ is_neighbor src b = true)) ∧
    (List.range 64).filter (fun i => is_neighbor 64 (64 ||| i)) =
      [1, 2, 4, 8, 16, 32] ∧
    ∀ a, a < 64 →
      ((List.range 64).filter
        (fun i => decide (i ≠ a) &&
          is_neighbor (64 ||| a) (64 ||| i))).length = 6 := by
  refine ⟨?_, by decide, by decide⟩
  intro cluster_shards dbs src block_hash txs b hb hfresh
  unfold holds_xshard_tx_list broadcast_xshard_tx_list
  by_cases hn : is_neighbor src b = true
  · rw [if_pos ⟨hb, hn⟩]
    simp [hn]
  · have hcond : ¬ (b ∈ cluster_shards ∧ is_neighbor src b = true) :=
      fun hcon => hn hcon.2
    rw [if_neg hcond]
    constructor
    · intro hany
      exfalso
      rcases List.any_eq_true.mp hany with ⟨e, he, heq⟩
      exact hfresh e he (by simpa using heq)
    · intro hcontra
      exact absurd hcontra hn

/-- Witness for C2: in a two-shard cluster with ids 64 and 65, shard 65
(a neighbor of 64) holds the list broadcast for block hash 9. -/
theorem xshard_broadcast_neighbor_only_witness :
    holds_xshard_tx_list
      (broadcast_xshard_tx_list [64, 65] (fun _ => []) 64 9 []) 65 9 =
      true :=
  (xshard_broadcast_neighbor_only.1 [64, 65] (fun _ => []) 64 9 [] 65
    (by simp) (by simp)).mpr (by decide)

/-- Claim C7: re-adding an already accepted minor block is a no-op that
reports success — the state (tip, balances, block store) is unchanged and
every subsequent `add_block` behaves as if the re-add had not happened. -/
theorem add_block_idempotent (s : ShardStateM) (b : MinorBlockM)
    (h : contain_block_by_hash s b.block_hash = true) :
    add_block s b = (true, s) ∧
    (add_block s b).2.tip_hash = s.tip_hash ∧
    (add_block s b).2.balances = s.balances ∧
    ∀ b4, add_block (add_block s b).2 b4 = add_block s b4 := by
  have he : add_block s b = (true, s) := by
    simp [add_block, h]
  exact ⟨he, by rw [he], by rw [he], fun b4 => by rw [he]⟩

/-- Witness for C7: re-adding the tip block of a two-block chain succeeds
without change and a child block is still addable exactly as before. -/
theorem add_block_idempotent_witness :
    add_block
      { blocks := [{ block_hash := 1, hash_prev_minor_block := 0,
                     height := 1, transfers := [] },
                   { block_hash := 0, hash_prev_minor_block := 9,
                     height := 0, transfers := [] }],
        tip_hash := 1, tip_height := 1, balances := fun _ => 0 }
      { block_hash := 1, hash_prev_minor_block := 0, height := 1,
        transfers := [] } =
      (true,
        { blocks := [{ block_hash := 1, hash_prev_minor_block := 0,
                       height := 1, transfers := [] },
                     { block_hash := 0, hash_prev_minor_block := 9,
                       height := 0, transfers := [] }],
          tip_hash := 1, tip_height := 1, balances := fun _ => 0 }) ∧
    add_block
      (add_block
        { blocks := [{ block_hash := 1, hash_prev_minor_block := 0,
                       height := 1, transfers := [] },
                     { block_hash := 0, hash_prev_minor_block := 9,
                       height := 0, transfers := [] }],
          tip_hash := 1, tip_height := 1, balances := fun _ => 0 }
        { block_hash := 1, hash_prev_minor_block := 0, height := 1,
          transfers := [] }).2
      { block_hash := 2, hash_prev_minor_block := 1, height := 2,
        transfers := [] } =
      add_block
        { blocks := [{ block_hash := 1, hash_prev_minor_block := 0,
                       height := 1, transfers := [] },
                     { block_hash := 0, hash_prev_minor_block := 9,
                       height := 0, transfers := [] }],
          tip_hash := 1, tip_height := 1, balances := fun _ => 0 }
        { block_hash := 2, hash_prev_minor_block := 1, height := 2,
          transfers := [] } := by
  have h := add_block_idempotent
    { blocks := [{ block_hash := 1, hash_prev_minor_block := 0,
                   height := 1, transfers := [] },
                 { block_hash := 0, hash_prev_minor_block := 9,
                   height := 0, transfers := [] }],
      tip_hash := 1, tip_height := 1, balances := fun _ => 0 }
    { block_hash := 1, hash_prev_minor_block := 0, height := 1,
      transfers := [] } (by decide)
  exact ⟨h.1, h.2.2.2
    { block_hash := 2, hash_prev_minor_block := 1, height := 2,
      transfers := [] }⟩
